import Mathlib

/-!
Verification of the painting-pack-maker core (crop geometry, preview
generation, pack-list metadata, and the export pipeline) against its
natural-language specification.  The Rust sources under
`src/src-tauri/src` are shallowly embedded: machine integers (`u32`)
become `Nat` (the crop arithmetic provably never overflows for inputs in
`u32` range, so the embedding is exact on the source's domain), file
system and image-codec effects become an explicit event trace and a
decode oracle, and panics (`unwrap`/`expect`) become `Except` aborts that
carry the events emitted before the abort.
-/

namespace PPM

/-- Embeds `ImageSize` from `src/src-tauri/src/models/image_size.rs`:
the closed set of aspect-ratio classes. -/
inductive ImageSize where
  | Square
  | Wide
  | LongRectangle
  | Tall
  | TallRectangle
deriving DecidableEq

/-- Embeds `ImageSize::iter` (image_size.rs, `PAINTING_SIZES`): the five
variants in declared order. -/
def ImageSize.iter : List ImageSize :=
  [ImageSize.Square, ImageSize.Wide, ImageSize.LongRectangle,
   ImageSize.Tall, ImageSize.TallRectangle]

/-- Embeds `ImageSize::get_size` (image_size.rs): the ordered list of
concrete (width, height) size multiples of each class. -/
def ImageSize.get_size : ImageSize → List (Nat × Nat)
  | ImageSize.Square => [(1, 1), (2, 2), (3, 3), (4, 4)]
  | ImageSize.Wide => [(2, 1), (4, 2)]
  | ImageSize.LongRectangle => [(4, 3)]
  | ImageSize.Tall => [(1, 2), (2, 4)]
  | ImageSize.TallRectangle => [(3, 4)]

/-- The `scale_factor` computed inside `calculate_crop_dimensions`
(`src/src-tauri/src/core/cropper.rs`): if the image is at least as wide
as the target ratio (`width * img_height >= height * img_width`, the
u64-widened cross multiplication), the height is limiting and the scale
is `height / img_height` (floor); otherwise `width / img_width`. -/
def crop_scale_factor (image_dims target_size : Nat × Nat) : Nat :=
  if image_dims.1 * target_size.2 ≥ image_dims.2 * target_size.1 then
    image_dims.2 / target_size.2
  else
    image_dims.1 / target_size.1

/-- Embeds `calculate_crop_dimensions` (cropper.rs): returns
`(width_start, height_start, crop_width, crop_height)` where the crop is
`target_size` scaled by `crop_scale_factor` and centred via floor
division.  All `u32` operations of the source are exact here: the
products `img_width * scale_factor` and `img_height * scale_factor` are
bounded by `width` resp. `height` (proved below), so no `u32` overflow
occurs and `Nat` arithmetic coincides with the source. -/
def calculate_crop_dimensions (image_dims target_size : Nat × Nat) :
    Nat × Nat × Nat × Nat :=
  let scale_factor := crop_scale_factor image_dims target_size
  let crop_width := target_size.1 * scale_factor
  let crop_height := target_size.2 * scale_factor
  let width_start := (image_dims.1 - crop_width) / 2
  let height_start := (image_dims.2 - crop_height) / 2
  (width_start, height_start, crop_width, crop_height)


/-- Rust `String::replace(' ', "_")` on the strings used by the
exporter: every space character becomes an underscore. -/
def replaceSpaces (s : String) : String :=
  String.mk (s.toList.map fun c => if c = ' ' then '_' else c)

/-- Rust `str::to_lowercase` restricted to ASCII (all inputs the claims
mention are ASCII; `Char.toLower` lower-cases exactly the ASCII capital
letters). -/
def asciiLower (s : String) : String :=
  String.mk (s.toList.map Char.toLower)

/-- The character filter from `export` (exporter.rs):
`c.is_ascii_lowercase() || c.is_ascii_digit() || *c == '_'`. -/
def keepIdChar (c : Char) : Bool :=
  (97 ≤ c.toNat && c.toNat ≤ 122) || (48 ≤ c.toNat && c.toNat ≤ 57) || c = '_'

/-- Embeds the bundle-identifier sanitization chain of `export`
(exporter.rs): `id.to_lowercase().replace(' ', "_").chars().filter(...)`
collected into a string. -/
def sanitize_pack_id (id : String) : String :=
  String.mk ((replaceSpaces (asciiLower id)).toList.filter keepIdChar)

/-- Embeds Rust `char::is_whitespace`: the Unicode `White_Space`
property.  Its members are U+0009..U+000D (tab, LF, vertical tab, form
feed, CR), U+0020 (space), U+0085 (next line), U+00A0 (no-break space),
U+1680 (Ogham space mark), U+2000..U+200A (en quad .. hair space),
U+2028 (line separator), U+2029 (paragraph separator), U+202F (narrow
no-break space), U+205F (medium mathematical space) and U+3000
(ideographic space). -/
def rustIsWhitespace (c : Char) : Bool :=
  (9 ≤ c.toNat && c.toNat ≤ 13) || c.toNat = 32 || c.toNat = 133 ||
  c.toNat = 160 || c.toNat = 5760 || (8192 ≤ c.toNat && c.toNat ≤ 8202) ||
  c.toNat = 8232 || c.toNat = 8233 || c.toNat = 8239 || c.toNat = 8287 ||
  c.toNat = 12288

/-- Embeds Rust `str::trim`: drop Unicode whitespace
(`rustIsWhitespace`) from both ends. -/
def rustTrim (s : String) : List Char :=
  ((s.toList.dropWhile rustIsWhitespace).reverse.dropWhile rustIsWhitespace).reverse

/-- Embeds `check_no_input` (`src/src-tauri/src/models/pack_list.rs`):
`None` for a blank-or-whitespace-only string, `Some(input)` otherwise. -/
def check_no_input (input : String) : Option String :=
  if (rustTrim input).isEmpty then none else some input

/-- Embeds the `Painting` manifest record (exporter.rs). -/
structure Painting where
  id : String
  filename : String
  name : String
  artist : String
  width : Nat
  height : Nat
deriving DecidableEq

/-- Embeds `PackList<Painting>` (pack_list.rs); the only instantiation
the exporter uses is `T = Painting`. -/
structure PackList where
  pack_name : String
  schema : String
  version : String
  id : String
  description : String
  paintings : List Painting
deriving DecidableEq

/-- Embeds `PackList::new` (pack_list.rs). -/
def PackList.new (pack_name version id description : String) : PackList :=
  { pack_name := pack_name
    schema := "http://json-schema.org/draft-07/schema#"
    version := version
    id := id
    description := description
    paintings := [] }

/-- Embeds `PackList::set_pack_name` (pack_list.rs). -/
def PackList.set_pack_name (pl : PackList) (pack_name : String) : PackList :=
  match check_no_input pack_name with
  | some valid_pack_name => { pl with pack_name := valid_pack_name }
  | none => pl

/-- Embeds `PackList::set_version` (pack_list.rs). -/
def PackList.set_version (pl : PackList) (version : String) : PackList :=
  match check_no_input version with
  | some valid_version => { pl with version := valid_version }
  | none => pl

/-- Embeds `PackList::set_id` (pack_list.rs). -/
def PackList.set_id (pl : PackList) (id : String) : PackList :=
  match check_no_input id with
  | some valid_id => { pl with id := valid_id }
  | none => pl

/-- Embeds `PackList::set_description` (pack_list.rs). -/
def PackList.set_description (pl : PackList) (description : String) : PackList :=
  match check_no_input description with
  | some valid_description => { pl with description := valid_description }
  | none => pl

/-- Embeds `PackList::add_painting` (pack_list.rs): push at the end. -/
def PackList.add_painting (pl : PackList) (painting : Painting) : PackList :=
  { pl with paintings := pl.paintings ++ [painting] }

/-- Embeds `ImageData` (`src/src-tauri/src/models/image_data.rs`). -/
structure ImageData where
  id : Option String
  filename : Option String
  name : Option String
  artist : Option String
  image_size : ImageSize
  selected : Bool
deriving DecidableEq

/-- Embeds `ImageData::new` (image_data.rs). -/
def ImageData.new (image_size : ImageSize) : ImageData :=
  { id := none
    filename := none
    name := none
    artist := none
    image_size := image_size
    selected := true }

/-- Embeds `ImageData::get_sizes` (image_data.rs). -/
def ImageData.get_sizes (d : ImageData) : List (Nat × Nat) :=
  d.image_size.get_size

/-- All four metadata fields the exporter unwraps are present. -/
def ImageData.complete (d : ImageData) : Bool :=
  d.id.isSome && d.filename.isSome && d.name.isSome && d.artist.isSome

/-- Pixel buffers of the image crate, abstracted to the operations the
exporter performs on them: a crop view of the image decoded at a path,
and `DynamicImage::thumbnail(maxWidth, u32::MAX)`, the proportional
downscale-to-fit whose unbounded height bound never constrains. -/
inductive Img where
  | cropOf (path : String) (x y w h : Nat)
  | thumbnailOf (source : Img) (maxWidth : Nat)
deriving DecidableEq

/-- Width of a buffer: a crop view's width, and for a thumbnail with an
unbounded height bound, the source width capped at `maxWidth`. -/
def Img.width : Img → Nat
  | Img.cropOf _ _ _ w _ => w
  | Img.thumbnailOf source maxWidth => min source.width maxWidth

/-- The image crate's decoder (`image::open` + `dimensions`) as an
oracle: path ↦ decoded (width, height), or `none` on decode failure. -/
def DecodeOracle : Type := String → Option (Nat × Nat)

/-- The failure of `image::open` (`image::ImageError`). -/
inductive DecodeError where
  | ioError
deriving DecidableEq

/-- Embeds `crop_single_image` (cropper.rs): decode, take the class's
first size multiple as the ratio, crop. -/
def crop_single_image (decode : DecodeOracle) (path : String)
    (image_size : ImageSize) : Option Img :=
  match decode path with
  | none => none
  | some img_dims =>
    let target_size := image_size.get_size.headD (0, 0)
    let r := calculate_crop_dimensions img_dims target_size
    some (Img.cropOf path r.1 r.2.1 r.2.2.1 r.2.2.2)

/-- Embeds `generate_cropped_images` (cropper.rs): decode once, then one
crop per `ImageSize::iter()` variant using that variant's first size
multiple. -/
def generate_cropped_images (decode : DecodeOracle) (path : String) :
    Except DecodeError (List Img) :=
  match decode path with
  | none => Except.error DecodeError.ioError
  | some img_dims =>
    Except.ok (ImageSize.iter.map fun size_variant =>
      let target_size := size_variant.get_size.headD (0, 0)
      let r := calculate_crop_dimensions img_dims target_size
      Img.cropOf path r.1 r.2.1 r.2.2.1 r.2.2.2)

/-- Embeds `ExportItem` (exporter.rs). -/
structure ExportItem where
  source_path : String
  data : ImageData
deriving DecidableEq

/-- The side effects of the exporter, in emission order. -/
inductive Event where
  | createImagesDir (path : String)
  | saveImage (path : String) (img : Img)
  | writeJsonFile (path : String) (pl : PackList)
  | writeIconFile (path : String)
deriving DecidableEq

/-- Panics of the exporter: `expect` on a failed decode, and `unwrap` on
an absent metadata field (the contract violation). -/
inductive Abort where
  | decodeFailure (path : String)
  | missingMetadata
deriving DecidableEq

/-- The `w x h` tag the exporter formats into ids and file names. -/
def sizeTag (wh : Nat × Nat) : String :=
  Nat.repr wh.1 ++ "x" ++ Nat.repr wh.2

/-- One iteration of the inner `for (width, height) in get_sizes` loop
of `write_images` (exporter.rs), faithful to the panic points: the
`unwrap` of `id`/`filename` fires before the file is saved, while the
`unwrap` of `name`/`artist` fires after the save but before the record
is appended.  Errors carry the events emitted before the panic. -/
def exportMultiple (data : ImageData) (painting : Img) (images_dir : String)
    (wh : Nat × Nat) : Except (Abort × List Event) (List Event × Painting) :=
  match data.id, data.filename with
  | some id0, some filename0 =>
    let sanitized_id := replaceSpaces id0
    let sanitized_filename := replaceSpaces filename0
    let idStr := sanitized_id ++ "_" ++ sizeTag wh
    let base_filename := sanitized_filename ++ "_" ++ sizeTag wh
    let save_path := images_dir ++ "/" ++ base_filename ++ ".png"
    let ev := Event.saveImage save_path painting
    match data.name, data.artist with
    | some nm, some ar =>
      Except.ok ([ev],
        { id := idStr
          filename := base_filename ++ ".png"
          name := nm
          artist := ar
          width := wh.1
          height := wh.2 })
    | _, _ => Except.error (Abort.missingMetadata, [ev])
  | _, _ => Except.error (Abort.missingMetadata, [])

/-- The inner loop of `write_images` over an item's size multiples,
threading the painting list through `add_painting`. -/
def exportSizes (data : ImageData) (painting : Img) (images_dir : String) :
    List (Nat × Nat) → PackList → Except (Abort × List Event) (List Event × PackList)
  | [], pl => Except.ok ([], pl)
  | wh :: rest, pl =>
    match exportMultiple data painting images_dir wh with
    | Except.error e => Except.error e
    | Except.ok (evs, p) =>
      match exportSizes data painting images_dir rest (pl.add_painting p) with
      | Except.error (a, evs2) => Except.error (a, evs ++ evs2)
      | Except.ok (evs2, pl2) => Except.ok (evs ++ evs2, pl2)

/-- One iteration of the outer `for item in image_list` loop of
`write_images`: re-crop from the source path (the `expect` on a decode
failure aborts), cap the width at 1024 via `thumbnail`, then run the
size-multiple loop. -/
def exportItemRun (decode : DecodeOracle) (images_dir : String)
    (item : ExportItem) (pl : PackList) :
    Except (Abort × List Event) (List Event × PackList) :=
  match crop_single_image decode item.source_path item.data.image_size with
  | none => Except.error (Abort.decodeFailure item.source_path, [])
  | some cropped =>
    let painting := if cropped.width > 1024 then Img.thumbnailOf cropped 1024 else cropped
    exportSizes item.data painting images_dir item.data.get_sizes pl

/-- The outer loop of `write_images` over all export items. -/
def writeImagesGo (decode : DecodeOracle) (images_dir : String) :
    List ExportItem → PackList → Except (Abort × List Event) (List Event × PackList)
  | [], pl => Except.ok ([], pl)
  | item :: rest, pl =>
    match exportItemRun decode images_dir item pl with
    | Except.error e => Except.error e
    | Except.ok (evs, pl1) =>
      match writeImagesGo decode images_dir rest pl1 with
      | Except.error (a, evs2) => Except.error (a, evs ++ evs2)
      | Except.ok (evs2, pl2) => Except.ok (evs ++ evs2, pl2)

/-- Embeds `write_images` (exporter.rs): create `<export_path>/images`,
then process every item. -/
def write_images (decode : DecodeOracle) (painting_list : PackList)
    (image_list : List ExportItem) (export_path : String) :
    Except (Abort × List Event) (List Event × PackList) :=
  let images_dir := export_path ++ "/images"
  match writeImagesGo decode images_dir image_list painting_list with
  | Except.error (a, evs) => Except.error (a, Event.createImagesDir images_dir :: evs)
  | Except.ok (evs, pl) => Except.ok (Event.createImagesDir images_dir :: evs, pl)

/-- Embeds `export` (exporter.rs); named `exportPack` because `export`
is a Lean keyword.  Sanitizes the pack name into the pack directory and
the bundle id, builds the fresh `PackList`, runs `write_images`, then
writes `custompaintings.json` and `icon.png`. -/
def exportPack (decode : DecodeOracle) (pack_name version id description : String)
    (items_to_export : List ExportItem) (export_path : String) :
    Except (Abort × List Event) (List Event × PackList) :=
  let sanitized_pack_name := replaceSpaces pack_name
  let pack_dir := export_path ++ "/" ++ sanitized_pack_name
  let sanitized_pack_id := sanitize_pack_id id
  let painting_list := PackList.new pack_name version sanitized_pack_id description
  match write_images decode painting_list items_to_export pack_dir with
  | Except.error e => Except.error e
  | Except.ok (evs, pl) =>
    Except.ok (evs ++
      [Event.writeJsonFile (pack_dir ++ "/custompaintings.json") pl,
       Event.writeIconFile (pack_dir ++ "/icon.png")], pl)

/-- The manifest record `write_images` appends for an item and a size
multiple, written in closed form (fields defaulted; only used where the
metadata is present). -/
def recordOf (d : ImageData) (wh : Nat × Nat) : Painting :=
  { id := replaceSpaces (d.id.getD "") ++ "_" ++ sizeTag wh
    filename := replaceSpaces (d.filename.getD "") ++ "_" ++ sizeTag wh ++ ".png"
    name := d.name.getD ""
    artist := d.artist.getD ""
    width := wh.1
    height := wh.2 }

/-- The path `write_images` saves an item's file to for one size
multiple, in closed form. -/
def savePathOf (images_dir : String) (d : ImageData) (wh : Nat × Nat) : String :=
  images_dir ++ "/" ++ (replaceSpaces (d.filename.getD "") ++ "_" ++ sizeTag wh) ++ ".png"

/-- The single pixel buffer `write_images` produces for one item: the
full-resolution crop, thumbnailed to width 1024 when wider (the default
branch is unreachable when the item's source decodes). -/
def bufferOf (decode : DecodeOracle) (it : ExportItem) : Img :=
  match crop_single_image decode it.source_path it.data.image_size with
  | some cropped => if cropped.width > 1024 then Img.thumbnailOf cropped 1024 else cropped
  | none => Img.cropOf it.source_path 0 0 0 0

/-- The save events one item contributes, in closed form: one per size
multiple, all carrying the item's single buffer. -/
def itemSaveEvents (decode : DecodeOracle) (images_dir : String)
    (it : ExportItem) : List Event :=
  it.data.get_sizes.map fun wh =>
    Event.saveImage (savePathOf images_dir it.data wh) (bufferOf decode it)

/-- The paths of the image files a run saved. -/
def savedPathsOf : Except (Abort × List Event) (List Event × PackList) → List String
  | Except.ok (evs, _) =>
    evs.filterMap fun ev =>
      match ev with
      | Event.saveImage p _ => some p
      | _ => none
  | Except.error _ => []

/-- The images directory of an export run, as `export` + `write_images`
build it. -/
def imagesDirOf (export_path pack_name : String) : String :=
  export_path ++ "/" ++ replaceSpaces pack_name ++ "/images"

/-- Is this event a `painting.save` call? -/
def Event.isSave : Event → Bool
  | Event.saveImage _ _ => true
  | _ => false

/-- Is this event the manifest (`custompaintings.json`) write? -/
def Event.isJsonWrite : Event → Bool
  | Event.writeJsonFile _ _ => true
  | _ => false

/-- Is this event the `icon.png` write? -/
def Event.isIconWrite : Event → Bool
  | Event.writeIconFile _ => true
  | _ => false

/-- The crop `generate_cropped_images` produces for one class: the crop
of the decoded `dims` at the class's first size multiple. -/
def previewCropOf (path : String) (dims : Nat × Nat) (size_variant : ImageSize) : Img :=
  let r := calculate_crop_dimensions dims (size_variant.get_size.headD (0, 0))
  Img.cropOf path r.1 r.2.1 r.2.2.1 r.2.2.2

/-- The bundle-identifier sanitization exactly as claim C6 words it:
lower-case the string, then keep only lowercase ASCII letters, digits
and underscores — with no space-to-underscore replacement.  Written from
the claim's words, to be compared with `sanitize_pack_id` from the
source. -/
def sanitizeIdClaimed (s : String) : String :=
  String.mk ((asciiLower s).toList.filter keepIdChar)

/-- The amended sanitization rule as a single pass over the characters:
lower-case each character, turn a space into an underscore, and keep the
result only when it is a lowercase ASCII letter, a digit or an
underscore. -/
def sanitizeIdAmendedList : List Char → List Char
  | [] => []
  | c :: cs =>
    let c1 := Char.toLower c
    let c2 := if c1 = ' ' then '_' else c1
    if keepIdChar c2 then c2 :: sanitizeIdAmendedList cs else sanitizeIdAmendedList cs

/-- Concrete decode oracle for witnesses: one 800×600 source image. -/
def demoDecode : DecodeOracle :=
  fun p => if p = "source.png" then some (800, 600) else none

/-- Concrete fully-populated item metadata for witnesses. -/
def demoData : ImageData :=
  { id := some "Test Square"
    filename := some "test_square_file"
    name := some "My Square Painting"
    artist := some "The Artist"
    image_size := ImageSize.Square
    selected := true }

/-- Concrete export item for witnesses. -/
def demoItem : ExportItem :=
  { source_path := "source.png", data := demoData }

/-- An item whose identifier is absent (contract violation). -/
def demoBadData : ImageData :=
  { id := none
    filename := some "bad_file"
    name := some "Bad"
    artist := some "The Artist"
    image_size := ImageSize.Wide
    selected := true }

/-- Export item carrying `demoBadData`. -/
def demoBadItem : ExportItem :=
  { source_path := "source.png", data := demoBadData }

/-- A concrete single-item export run used by the counterexamples. -/
def demoRun : Except (Abort × List Event) (List Event × PackList) :=
  exportPack demoDecode "My Test Pack" "1.0.0" "My Test ID!" "A pack for testing"
    [demoItem] "out"

/-- Concrete pack list for the setter witnesses. -/
def demoPackList : PackList :=
  PackList.new "Default" "1.0.0" "70000" "A list of paintings in the gallery"

/-- The paths of the icon files a run wrote. -/
def iconPathsOf : Except (Abort × List Event) (List Event × PackList) → List String
  | Except.ok (evs, _) =>
    evs.filterMap fun ev =>
      match ev with
      | Event.writeIconFile p => some p
      | _ => none
  | Except.error _ => []

/-- The bundle identifier recorded in a successful run's pack list. -/
def packIdOf : Except (Abort × List Event) (List Event × PackList) → Option String
  | Except.ok (_, pl) => some pl.id
  | Except.error _ => none

lemma crop_width_le (W H rw rh : Nat) (hrw : 0 < rw) (hrh : 0 < rh) :
    rw * crop_scale_factor (W, H) (rw, rh) ≤ W := by
  unfold crop_scale_factor
  by_cases hcase : W * rh ≥ H * rw
  · simp only [hcase, if_pos]
    have h1 : rw * (H / rh) * rh ≤ W * rh := by
      calc rw * (H / rh) * rh = rw * (H / rh * rh) := by rw [Nat.mul_assoc]
        _ ≤ rw * H := Nat.mul_le_mul_left rw (Nat.div_mul_le_self H rh)
        _ = H * rw := Nat.mul_comm rw H
        _ ≤ W * rh := hcase
    exact Nat.le_of_mul_le_mul_right h1 hrh
  · simp only [hcase, if_neg, not_false_iff]
    calc rw * (W / rw) = W / rw * rw := Nat.mul_comm _ _
      _ ≤ W := Nat.div_mul_le_self W rw

lemma crop_height_le (W H rw rh : Nat) (hrw : 0 < rw) (hrh : 0 < rh) :
    rh * crop_scale_factor (W, H) (rw, rh) ≤ H := by
  unfold crop_scale_factor
  by_cases hcase : W * rh ≥ H * rw
  · simp only [hcase, if_pos]
    calc rh * (H / rh) = H / rh * rh := Nat.mul_comm _ _
      _ ≤ H := Nat.div_mul_le_self H rh
  · simp only [hcase, if_neg, not_false_iff]
    have hlt : W * rh < H * rw := Nat.lt_of_not_le hcase
    have h1 : rh * (W / rw) * rw ≤ H * rw := by
      calc rh * (W / rw) * rw = rh * (W / rw * rw) := by rw [Nat.mul_assoc]
        _ ≤ rh * W := Nat.mul_le_mul_left rh (Nat.div_mul_le_self W rw)
        _ = W * rh := Nat.mul_comm rh W
        _ ≤ H * rw := Nat.le_of_lt hlt
    exact Nat.le_of_mul_le_mul_right h1 hrw

/-- C1: for all positive source sizes (W, H) and target ratios (rw, rh),
the crop rectangle computed by `calculate_crop_dimensions` fits within
the source (`x + cw ≤ W`, `y + ch ≤ H`), and when the scale factor is at
least 1 the crop width and height reduce to the same lowest-terms ratio
as the target. -/
theorem crop_rect_fits_and_ratio (W H rw rh x y cw ch : Nat)
    (hW : 0 < W) (hH : 0 < H) (hrw : 0 < rw) (hrh : 0 < rh)
    (heq : calculate_crop_dimensions (W, H) (rw, rh) = (x, y, cw, ch)) :
    x + cw ≤ W ∧ y + ch ≤ H ∧
    (1 ≤ crop_scale_factor (W, H) (rw, rh) →
      cw / Nat.gcd cw ch = rw / Nat.gcd rw rh ∧
      ch / Nat.gcd cw ch = rh / Nat.gcd rw rh) := by
  have hx : x = (W - rw * crop_scale_factor (W, H) (rw, rh)) / 2 := by
    have := congrArg (fun t => t.1) heq; simpa [calculate_crop_dimensions] using this.symm
  have hy : y = (H - rh * crop_scale_factor (W, H) (rw, rh)) / 2 := by
    have := congrArg (fun t => t.2.1) heq; simpa [calculate_crop_dimensions] using this.symm
  have hcw : cw = rw * crop_scale_factor (W, H) (rw, rh) := by
    have := congrArg (fun t => t.2.2.1) heq; simpa [calculate_crop_dimensions] using this.symm
  have hch : ch = rh * crop_scale_factor (W, H) (rw, rh) := by
    have := congrArg (fun t => t.2.2.2) heq; simpa [calculate_crop_dimensions] using this.symm
  have hwle : cw ≤ W := hcw ▸ crop_width_le W H rw rh hrw hrh
  have hhle : ch ≤ H := hch ▸ crop_height_le W H rw rh hrw hrh
  refine ⟨?_, ?_, ?_⟩
  · calc x + cw ≤ (W - cw) + cw := by
          have : x ≤ W - cw := by rw [hx, hcw]; exact Nat.div_le_self _ 2
          exact Nat.add_le_add_right this cw
      _ = W := Nat.sub_add_cancel hwle
  · calc y + ch ≤ (H - ch) + ch := by
          have : y ≤ H - ch := by rw [hy, hch]; exact Nat.div_le_self _ 2
          exact Nat.add_le_add_right this ch
      _ = H := Nat.sub_add_cancel hhle
  · intro hs
    have hspos : 0 < crop_scale_factor (W, H) (rw, rh) := hs
    have hg : Nat.gcd cw ch = Nat.gcd rw rh * crop_scale_factor (W, H) (rw, rh) := by
      rw [hcw, hch]; exact Nat.gcd_mul_right rw _ rh
    constructor
    · rw [hg, hcw]; exact Nat.mul_div_mul_right rw (Nat.gcd rw rh) hspos
    · rw [hg, hch]; exact Nat.mul_div_mul_right rh (Nat.gcd rw rh) hspos

/-- Witness for C1 at the 1600×900 source with the 4:3 target. -/
theorem crop_rect_fits_and_ratio_witness :
    200 + 1200 ≤ 1600 ∧ 0 + 900 ≤ 900 ∧
    (1 ≤ crop_scale_factor (1600, 900) (4, 3) →
      1200 / Nat.gcd 1200 900 = 4 / Nat.gcd 4 3 ∧
      900 / Nat.gcd 1200 900 = 3 / Nat.gcd 4 3) :=
  crop_rect_fits_and_ratio 1600 900 4 3 200 0 1200 900
    (by decide) (by decide) (by decide) (by decide) (by decide)

/-- C2: for a 1600×900 source, the crop for the Square class's base
ratio (1:1) is (350, 0, 900, 900), for Wide (2:1) it is
(0, 50, 1600, 800), and for LongRectangle (4:3) it is
(200, 0, 1200, 900). -/
theorem crop_concrete_1600x900 :
    calculate_crop_dimensions (1600, 900) (ImageSize.Square.get_size.headD (0, 0)) =
      (350, 0, 900, 900) ∧
    calculate_crop_dimensions (1600, 900) (ImageSize.Wide.get_size.headD (0, 0)) =
      (0, 50, 1600, 800) ∧
    calculate_crop_dimensions (1600, 900) (ImageSize.LongRectangle.get_size.headD (0, 0)) =
      (200, 0, 1200, 900) := by
  decide

lemma exportMultiple_ok (d : ImageData) (img : Img) (dir : String) (wh : Nat × Nat)
    {i0 f0 n0 a0 : String}
    (hid : d.id = some i0) (hfn : d.filename = some f0)
    (hnm : d.name = some n0) (har : d.artist = some a0) :
    exportMultiple d img dir wh =
      Except.ok ([Event.saveImage (savePathOf dir d wh) img], recordOf d wh) := by
  simp [exportMultiple, hid, hfn, hnm, har, savePathOf, recordOf]

lemma exportSizes_ok (d : ImageData) (img : Img) (dir : String)
    {i0 f0 n0 a0 : String}
    (hid : d.id = some i0) (hfn : d.filename = some f0)
    (hnm : d.name = some n0) (har : d.artist = some a0) :
    ∀ (sizes : List (Nat × Nat)) (pl : PackList),
      exportSizes d img dir sizes pl =
        Except.ok (sizes.map (fun wh => Event.saveImage (savePathOf dir d wh) img),
          { pl with paintings := pl.paintings ++ sizes.map (recordOf d) }) := by
  intro sizes
  induction sizes with
  | nil => intro pl; simp [exportSizes]
  | cons wh rest ih =>
    intro pl
    simp only [exportSizes, exportMultiple_ok d img dir wh hid hfn hnm har, ih,
      List.map_cons, PackList.add_painting]
    simp

lemma exportItemRun_ok (decode : DecodeOracle) (dir : String) (it : ExportItem)
    (pl : PackList) {i0 f0 n0 a0 : String}
    (hid : it.data.id = some i0) (hfn : it.data.filename = some f0)
    (hnm : it.data.name = some n0) (har : it.data.artist = some a0)
    (hdec : (decode it.source_path).isSome = true) :
    exportItemRun decode dir it pl =
      Except.ok (itemSaveEvents decode dir it,
        { pl with paintings := pl.paintings ++ it.data.get_sizes.map (recordOf it.data) }) := by
  obtain ⟨dims, hdims⟩ := Option.isSome_iff_exists.mp hdec
  have hc : crop_single_image decode it.source_path it.data.image_size =
      some (Img.cropOf it.source_path
        (calculate_crop_dimensions dims (it.data.image_size.get_size.headD (0, 0))).1
        (calculate_crop_dimensions dims (it.data.image_size.get_size.headD (0, 0))).2.1
        (calculate_crop_dimensions dims (it.data.image_size.get_size.headD (0, 0))).2.2.1
        (calculate_crop_dimensions dims (it.data.image_size.get_size.headD (0, 0))).2.2.2) := by
    simp [crop_single_image, hdims]
  have hbuf : bufferOf decode it =
      (if (Img.cropOf it.source_path
            (calculate_crop_dimensions dims (it.data.image_size.get_size.headD (0, 0))).1
            (calculate_crop_dimensions dims (it.data.image_size.get_size.headD (0, 0))).2.1
            (calculate_crop_dimensions dims (it.data.image_size.get_size.headD (0, 0))).2.2.1
            (calculate_crop_dimensions dims (it.data.image_size.get_size.headD (0, 0))).2.2.2).width > 1024
       then Img.thumbnailOf (Img.cropOf it.source_path
            (calculate_crop_dimensions dims (it.data.image_size.get_size.headD (0, 0))).1
            (calculate_crop_dimensions dims (it.data.image_size.get_size.headD (0, 0))).2.1
            (calculate_crop_dimensions dims (it.data.image_size.get_size.headD (0, 0))).2.2.1
            (calculate_crop_dimensions dims (it.data.image_size.get_size.headD (0, 0))).2.2.2) 1024
       else Img.cropOf it.source_path
            (calculate_crop_dimensions dims (it.data.image_size.get_size.headD (0, 0))).1
            (calculate_crop_dimensions dims (it.data.image_size.get_size.headD (0, 0))).2.1
            (calculate_crop_dimensions dims (it.data.image_size.get_size.headD (0, 0))).2.2.1
            (calculate_crop_dimensions dims (it.data.image_size.get_size.headD (0, 0))).2.2.2) := by
    simp [bufferOf, hc]
  simp only [exportItemRun, hc, itemSaveEvents, ← hbuf]
  exact exportSizes_ok it.data _ dir hid hfn hnm har it.data.get_sizes pl

lemma complete_fields {d : ImageData} (h : d.complete = true) :
    ∃ i0 f0 n0 a0, d.id = some i0 ∧ d.filename = some f0 ∧
      d.name = some n0 ∧ d.artist = some a0 := by
  simp only [ImageData.complete, Bool.and_eq_true] at h
  obtain ⟨⟨⟨h1, h2⟩, h3⟩, h4⟩ := h
  obtain ⟨i0, hi⟩ := Option.isSome_iff_exists.mp h1
  obtain ⟨f0, hf⟩ := Option.isSome_iff_exists.mp h2
  obtain ⟨n0, hn⟩ := Option.isSome_iff_exists.mp h3
  obtain ⟨a0, ha⟩ := Option.isSome_iff_exists.mp h4
  exact ⟨i0, f0, n0, a0, hi, hf, hn, ha⟩

lemma writeImagesGo_ok (decode : DecodeOracle) (dir : String) :
    ∀ (items : List ExportItem) (pl : PackList),
      (∀ it ∈ items, it.data.complete = true ∧ (decode it.source_path).isSome = true) →
      writeImagesGo decode dir items pl =
        Except.ok ((items.map (itemSaveEvents decode dir)).flatten,
          { pl with paintings := pl.paintings ++
              (items.map (fun it => it.data.get_sizes.map (recordOf it.data))).flatten }) := by
  intro items
  induction items with
  | nil => intro pl h; simp [writeImagesGo]
  | cons item rest ih =>
    intro pl h
    obtain ⟨i0, f0, n0, a0, hi, hf, hn, ha⟩ :=
      complete_fields (h item (List.mem_cons_self item rest)).1
    have hdec := (h item (List.mem_cons_self item rest)).2
    have hrest : ∀ it ∈ rest, it.data.complete = true ∧ (decode it.source_path).isSome = true :=
      fun it hit => h it (List.mem_cons_of_mem item hit)
    simp only [writeImagesGo, exportItemRun_ok decode dir item pl hi hf hn ha hdec,
      ih _ hrest, List.map_cons, List.flatten_cons]
    simp

lemma exportPack_ok (decode : DecodeOracle) (pn v id0 desc : String)
    (items : List ExportItem) (root : String)
    (h : ∀ it ∈ items, it.data.complete = true ∧ (decode it.source_path).isSome = true) :
    exportPack decode pn v id0 desc items root =
      Except.ok (
        Event.createImagesDir (imagesDirOf root pn) ::
          ((items.map (itemSaveEvents decode (imagesDirOf root pn))).flatten ++
           [Event.writeJsonFile (root ++ "/" ++ replaceSpaces pn ++ "/custompaintings.json")
              { PackList.new pn v (sanitize_pack_id id0) desc with
                  paintings := (items.map
                    (fun it => it.data.get_sizes.map (recordOf it.data))).flatten },
            Event.writeIconFile (root ++ "/" ++ replaceSpaces pn ++ "/icon.png")]),
        { PackList.new pn v (sanitize_pack_id id0) desc with
            paintings := (items.map
              (fun it => it.data.get_sizes.map (recordOf it.data))).flatten }) := by
  simp only [exportPack, write_images,
    writeImagesGo_ok decode (root ++ "/" ++ replaceSpaces pn ++ "/images") items
      (PackList.new pn v (sanitize_pack_id id0) desc) h, imagesDirOf]
  simp [PackList.new]

lemma get_sizes_ne_nil (d : ImageData) : d.get_sizes ≠ [] := by
  cases h : d.image_size <;> simp [ImageData.get_sizes, h, ImageSize.get_size]

lemma exportMultiple_abort (d : ImageData) (img : Img) (dir : String) (wh : Nat × Nat)
    (hmiss : d.id = none ∨ d.filename = none) :
    exportMultiple d img dir wh = Except.error (Abort.missingMetadata, []) := by
  rcases hmiss with h | h
  · simp [exportMultiple, h]
  · cases hid : d.id <;> simp [exportMultiple, hid, h]

lemma exportItemRun_abort (decode : DecodeOracle) (dir : String) (it : ExportItem)
    (pl : PackList) (hdec : (decode it.source_path).isSome = true)
    (hmiss : it.data.id = none ∨ it.data.filename = none) :
    exportItemRun decode dir it pl = Except.error (Abort.missingMetadata, []) := by
  obtain ⟨dims, hdims⟩ := Option.isSome_iff_exists.mp hdec
  have hc : ∃ c, crop_single_image decode it.source_path it.data.image_size = some c := by
    simp [crop_single_image, hdims]
  obtain ⟨c, hc⟩ := hc
  obtain ⟨wh, rest, hsz⟩ : ∃ wh rest, it.data.get_sizes = wh :: rest := by
    cases h : it.data.get_sizes with
    | nil => exact absurd h (get_sizes_ne_nil it.data)
    | cons wh rest => exact ⟨wh, rest, rfl⟩
  simp [exportItemRun, hc, hsz, exportSizes, exportMultiple_abort it.data _ dir wh hmiss]

lemma writeImagesGo_abort (decode : DecodeOracle) (dir : String) :
    ∀ (items : List ExportItem) (pl : PackList),
      (∀ it ∈ items, (decode it.source_path).isSome = true ∧
        it.data.name.isSome = true ∧ it.data.artist.isSome = true) →
      (∃ it ∈ items, it.data.id = none ∨ it.data.filename = none) →
      writeImagesGo decode dir items pl =
        Except.error (Abort.missingMetadata,
          ((items.takeWhile fun it => it.data.id.isSome && it.data.filename.isSome).map
            (itemSaveEvents decode dir)).flatten) := by
  intro items
  induction items with
  | nil => intro pl h hm; simp at hm
  | cons item rest ih =>
    intro pl h hm
    have hdec := (h item (List.mem_cons_self item rest)).1
    by_cases hc : (item.data.id.isSome && item.data.filename.isSome) = true
    · obtain ⟨h1, h2⟩ : item.data.id.isSome = true ∧ item.data.filename.isSome = true := by
        simpa using hc
      obtain ⟨i0, hi⟩ := Option.isSome_iff_exists.mp h1
      obtain ⟨f0, hf⟩ := Option.isSome_iff_exists.mp h2
      obtain ⟨n0, hn⟩ := Option.isSome_iff_exists.mp (h item (List.mem_cons_self item rest)).2.1
      obtain ⟨a0, ha⟩ := Option.isSome_iff_exists.mp (h item (List.mem_cons_self item rest)).2.2
      have hmrest : ∃ it ∈ rest, it.data.id = none ∨ it.data.filename = none := by
        rcases hm with ⟨it, hit, hmiss⟩
        rcases List.mem_cons.mp hit with rfl | hit'
        · rcases hmiss with hmiss | hmiss
          · rw [hmiss] at hi; exact absurd hi (by simp)
          · rw [hmiss] at hf; exact absurd hf (by simp)
        · exact ⟨it, hit', hmiss⟩
      have hrest : ∀ it ∈ rest, (decode it.source_path).isSome = true ∧
          it.data.name.isSome = true ∧ it.data.artist.isSome = true :=
        fun it hit => h it (List.mem_cons_of_mem item hit)
      have ht : List.takeWhile
          (fun it : ExportItem => it.data.id.isSome && it.data.filename.isSome) (item :: rest) =
          item :: List.takeWhile
            (fun it : ExportItem => it.data.id.isSome && it.data.filename.isSome) rest :=
        List.takeWhile_cons_of_pos hc
      simp only [writeImagesGo, exportItemRun_ok decode dir item pl hi hf hn ha hdec,
        ih _ hrest hmrest, ht, List.map_cons, List.flatten_cons]
    · have hmiss : item.data.id = none ∨ item.data.filename = none := by
        cases hid : item.data.id with
        | none => exact Or.inl rfl
        | some i0 =>
          cases hfn : item.data.filename with
          | none => exact Or.inr rfl
          | some f0 => exact absurd (by simp [hid, hfn]) hc
      have ht : List.takeWhile
          (fun it : ExportItem => it.data.id.isSome && it.data.filename.isSome) (item :: rest) =
          [] :=
        List.takeWhile_cons_of_neg hc
      simp only [writeImagesGo, exportItemRun_abort decode dir item pl hdec hmiss,
        ht, List.map_nil, List.flatten_nil]

/-- C10: for every AspectClass, `ImageData::new` returns an item with
all four metadata fields absent, the given class, and `selected`
(inclusion) defaulting to `true`. -/
theorem image_data_new_defaults (image_size : ImageSize) :
    (ImageData.new image_size).id = none ∧
    (ImageData.new image_size).filename = none ∧
    (ImageData.new image_size).name = none ∧
    (ImageData.new image_size).artist = none ∧
    (ImageData.new image_size).image_size = image_size ∧
    (ImageData.new image_size).selected = true :=
  ⟨rfl, rfl, rfl, rfl, rfl, rfl⟩

/-- C7: `generate_cropped_images` either fails with a decode error and
produces no partial results, or returns exactly one cropped buffer per
`ImageSize` class, in declared enumeration order, each crop computed
from the class's first size multiple. -/
theorem preview_one_buffer_per_class (decode : DecodeOracle) (path : String) :
    (decode path = none →
      generate_cropped_images decode path = Except.error DecodeError.ioError) ∧
    (∀ dims, decode path = some dims →
      generate_cropped_images decode path = Except.ok
        [previewCropOf path dims ImageSize.Square,
         previewCropOf path dims ImageSize.Wide,
         previewCropOf path dims ImageSize.LongRectangle,
         previewCropOf path dims ImageSize.Tall,
         previewCropOf path dims ImageSize.TallRectangle]) := by
  constructor
  · intro h; simp [generate_cropped_images, h]
  · intro dims h; simp [generate_cropped_images, h, ImageSize.iter, previewCropOf]

/-- Witness for C7: both branches at a concrete oracle. -/
theorem preview_one_buffer_per_class_witness :
    generate_cropped_images demoDecode "missing.png" = Except.error DecodeError.ioError ∧
    generate_cropped_images demoDecode "source.png" = Except.ok
      [previewCropOf "source.png" (800, 600) ImageSize.Square,
       previewCropOf "source.png" (800, 600) ImageSize.Wide,
       previewCropOf "source.png" (800, 600) ImageSize.LongRectangle,
       previewCropOf "source.png" (800, 600) ImageSize.Tall,
       previewCropOf "source.png" (800, 600) ImageSize.TallRectangle] :=
  ⟨(preview_one_buffer_per_class demoDecode "missing.png").1 (by decide),
   (preview_one_buffer_per_class demoDecode "source.png").2 (800, 600) (by decide)⟩

/-- Counterexample to C6 as stated: the claim's rule (lower-case, then
keep only lowercase letters, digits and underscores, with no
space-to-underscore replacement) sends "My Test ID!" to "mytestid",
while the code's sanitization sends it to "my_test_id". -/
theorem sanitize_id_rule_counterexample :
    sanitizeIdClaimed "My Test ID!" = "mytestid" ∧
    sanitize_pack_id "My Test ID!" = "my_test_id" ∧
    sanitizeIdClaimed "My Test ID!" ≠ sanitize_pack_id "My Test ID!" := by
  decide

lemma sanitize_pack_id_eq_amended (s : String) :
    sanitize_pack_id s = String.mk (sanitizeIdAmendedList s.toList) := by
  have h : ∀ cs : List Char,
      ((cs.map Char.toLower).map (fun c => if c = ' ' then '_' else c)).filter keepIdChar =
        sanitizeIdAmendedList cs := by
    intro cs
    induction cs with
    | nil => rfl
    | cons c cs ih => simp only [List.map_cons, List.filter_cons, sanitizeIdAmendedList, ih]
  simpa [sanitize_pack_id, replaceSpaces, asciiLower] using congrArg String.mk (h s.toList)

/-- C6 (amended): the pack name is sanitized by replacing every space
with an underscore, and the bundle identifier by lower-casing,
replacing every space with an underscore, and then keeping only
lowercase ASCII letters, digits and underscores; "My Test Pack" becomes
the directory My_Test_Pack and "My Test ID!" becomes my_test_id, as a
concrete export run shows. -/
theorem sanitize_rules (s : String) :
    sanitize_pack_id s = String.mk (sanitizeIdAmendedList s.toList) ∧
    replaceSpaces "My Test Pack" = "My_Test_Pack" ∧
    sanitize_pack_id "My Test ID!" = "my_test_id" ∧
    "out/My_Test_Pack/icon.png" ∈ iconPathsOf demoRun ∧
    packIdOf demoRun = some "my_test_id" := by
  exact ⟨sanitize_pack_id_eq_amended s, by decide, by decide, by decide, by decide⟩

/-- C3 counterexample: in a concrete export run the image file is not
written at `images/<sanitized_id>_<filename_stem>_<w>x<h>.png` as the
claim states; the file name starts with the sanitized filename stem
only, and the sanitized identifier appears in no saved path. -/
theorem export_filename_counterexample :
    "out/My_Test_Pack/images/Test_Square_test_square_file_1x1.png" ∉ savedPathsOf demoRun ∧
    "out/My_Test_Pack/images/test_square_file_1x1.png" ∈ savedPathsOf demoRun := by
  decide

lemma rustTrim_eq_nil_iff (s : String) :
    rustTrim s = [] ↔ ∀ c ∈ s.toList, rustIsWhitespace c = true := by
  unfold rustTrim
  rw [List.reverse_eq_nil_iff, List.dropWhile_eq_nil_iff]
  constructor
  · intro h c hc
    have hx : c ∈ s.toList.takeWhile rustIsWhitespace ++
        s.toList.dropWhile rustIsWhitespace := by
      rw [List.takeWhile_append_dropWhile]; exact hc
    rcases List.mem_append.mp hx with h1 | h1
    · exact List.mem_takeWhile_imp h1
    · exact h c (List.mem_reverse.mpr h1)
  · intro h c hc
    exact h c ((List.dropWhile_sublist rustIsWhitespace).subset (List.mem_reverse.mp hc))

lemma check_no_input_none_iff (s : String) :
    check_no_input s = none ↔ ∀ c ∈ s.toList, rustIsWhitespace c = true := by
  rw [← rustTrim_eq_nil_iff, ← List.isEmpty_iff]
  by_cases h : (rustTrim s).isEmpty <;> simp [check_no_input, h]

lemma check_no_input_some (s : String)
    (h : ∃ c ∈ s.toList, ¬rustIsWhitespace c = true) : check_no_input s = some s := by
  by_cases hb : (rustTrim s).isEmpty
  · exfalso
    rcases h with ⟨c, hc, hcw⟩
    exact hcw ((rustTrim_eq_nil_iff s).mp (List.isEmpty_iff.mp hb) c hc)
  · simp [check_no_input, hb]

/-- C8: every metadata setter of `PackList` leaves the whole pack list
unchanged on an empty or whitespace-only string (no error), and on a
string containing any non-whitespace character replaces exactly its own
field with that string, every other field untouched. -/
theorem setters_blank_input_policy (pl : PackList) (s : String) :
    ((∀ c ∈ s.toList, rustIsWhitespace c = true) →
      pl.set_pack_name s = pl ∧ pl.set_version s = pl ∧
      pl.set_id s = pl ∧ pl.set_description s = pl) ∧
    ((∃ c ∈ s.toList, ¬rustIsWhitespace c = true) →
      pl.set_pack_name s = { pl with pack_name := s } ∧
      pl.set_version s = { pl with version := s } ∧
      pl.set_id s = { pl with id := s } ∧
      pl.set_description s = { pl with description := s }) := by
  constructor
  · intro h
    have hn : check_no_input s = none := (check_no_input_none_iff s).mpr h
    simp [PackList.set_pack_name, PackList.set_version, PackList.set_id,
      PackList.set_description, hn]
  · intro h
    have hs : check_no_input s = some s := check_no_input_some s h
    simp [PackList.set_pack_name, PackList.set_version, PackList.set_id,
      PackList.set_description, hs]

/-- Witness for C8: a whitespace-only input and a valid input at a
concrete pack list. -/
theorem setters_blank_input_policy_witness :
    (demoPackList.set_pack_name "   " = demoPackList ∧
     demoPackList.set_version "   " = demoPackList ∧
     demoPackList.set_id "   " = demoPackList ∧
     demoPackList.set_description "   " = demoPackList) ∧
    (demoPackList.set_pack_name "\x0B\x0C " = demoPackList ∧
     demoPackList.set_version "\x0B\x0C " = demoPackList ∧
     demoPackList.set_id "\x0B\x0C " = demoPackList ∧
     demoPackList.set_description "\x0B\x0C " = demoPackList) ∧
    (demoPackList.set_pack_name "New Name" = { demoPackList with pack_name := "New Name" } ∧
     demoPackList.set_version "New Name" = { demoPackList with version := "New Name" } ∧
     demoPackList.set_id "New Name" = { demoPackList with id := "New Name" } ∧
     demoPackList.set_description "New Name" =
       { demoPackList with description := "New Name" }) :=
  ⟨(setters_blank_input_policy demoPackList "   ").1 (by decide),
   (setters_blank_input_policy demoPackList "\x0B\x0C ").1 (by decide),
   (setters_blank_input_policy demoPackList "New Name").2 (by decide)⟩

lemma saveEvents_all_save (decode : DecodeOracle) (dir : String) (items : List ExportItem) :
    ∀ ev ∈ (items.map (itemSaveEvents decode dir)).flatten, Event.isSave ev = true := by
  intro ev hev
  rcases List.mem_flatten.mp hev with ⟨l, hl, hevl⟩
  rcases List.mem_map.mp hl with ⟨it, hit, rfl⟩
  simp only [itemSaveEvents] at hevl
  rcases List.mem_map.mp hevl with ⟨wh, hwh, rfl⟩
  rfl

lemma saveEvents_not_json (decode : DecodeOracle) (dir : String) (items : List ExportItem) :
    ∀ ev ∈ (items.map (itemSaveEvents decode dir)).flatten, ¬Event.isJsonWrite ev = true := by
  intro ev hev
  rcases List.mem_flatten.mp hev with ⟨l, hl, hevl⟩
  rcases List.mem_map.mp hl with ⟨it, hit, rfl⟩
  simp only [itemSaveEvents] at hevl
  rcases List.mem_map.mp hevl with ⟨wh, hwh, rfl⟩
  simp [Event.isJsonWrite]

lemma saveEvents_not_icon (decode : DecodeOracle) (dir : String) (items : List ExportItem) :
    ∀ ev ∈ (items.map (itemSaveEvents decode dir)).flatten, ¬Event.isIconWrite ev = true := by
  intro ev hev
  rcases List.mem_flatten.mp hev with ⟨l, hl, hevl⟩
  rcases List.mem_map.mp hl with ⟨it, hit, rfl⟩
  simp only [itemSaveEvents] at hevl
  rcases List.mem_map.mp hevl with ⟨wh, hwh, rfl⟩
  simp [Event.isIconWrite]

lemma saveEvents_length (decode : DecodeOracle) (dir : String) (items : List ExportItem) :
    (items.map (itemSaveEvents decode dir)).flatten.length =
      (items.map fun it => it.data.get_sizes.length).sum := by
  rw [List.length_flatten, List.map_map]
  have h : (List.length ∘ itemSaveEvents decode dir) =
      fun it : ExportItem => it.data.get_sizes.length := by
    funext it
    simp [itemSaveEvents]
  rw [h]

lemma records_length (items : List ExportItem) :
    (items.map fun it => it.data.get_sizes.map (recordOf it.data)).flatten.length =
      (items.map fun it => it.data.get_sizes.length).sum := by
  rw [List.length_flatten, List.map_map]
  have h : (List.length ∘ fun it : ExportItem => it.data.get_sizes.map (recordOf it.data)) =
      fun it : ExportItem => it.data.get_sizes.length := by
    funext it
    simp
  rw [h]

lemma run_filter_save (dir jp ip : String) (pl : PackList) (F : List Event)
    (hsave : F.filter Event.isSave = F) :
    (Event.createImagesDir dir ::
      (F ++ [Event.writeJsonFile jp pl, Event.writeIconFile ip])).filter Event.isSave = F := by
  simp [List.filter_cons, List.filter_append, Event.isSave, hsave]

lemma run_filter_json (dir jp ip : String) (pl : PackList) (F : List Event)
    (hjson : F.filter Event.isJsonWrite = []) :
    ((Event.createImagesDir dir ::
      (F ++ [Event.writeJsonFile jp pl, Event.writeIconFile ip])).filter
        Event.isJsonWrite).length = 1 := by
  simp [List.filter_cons, List.filter_append, Event.isJsonWrite, hjson]

lemma run_filter_icon (dir jp ip : String) (pl : PackList) (F : List Event)
    (hicon : F.filter Event.isIconWrite = []) :
    ((Event.createImagesDir dir ::
      (F ++ [Event.writeJsonFile jp pl, Event.writeIconFile ip])).filter
        Event.isIconWrite).length = 1 := by
  simp [List.filter_cons, List.filter_append, Event.isIconWrite, hicon]

/-- C4: on items with complete metadata and decodable sources (all
included), export succeeds, writes exactly Σ k_i image files and exactly
one manifest and one icon file, and appends exactly Σ k_i manifest
records, in item input order and, within one item, in the class's
declared multiple order. -/
theorem export_counts_and_order (decode : DecodeOracle) (pn v id0 desc : String)
    (items : List ExportItem) (root : String)
    (hinc : ∀ it ∈ items, it.data.selected = true)
    (hcomp : ∀ it ∈ items, it.data.complete = true)
    (hdec : ∀ it ∈ items, (decode it.source_path).isSome = true) :
    ∃ evs pl, exportPack decode pn v id0 desc items root = Except.ok (evs, pl) ∧
      (evs.filter Event.isSave).length =
        (items.map fun it => it.data.get_sizes.length).sum ∧
      pl.paintings.length = (items.map fun it => it.data.get_sizes.length).sum ∧
      pl.paintings = (items.map fun it => it.data.get_sizes.map (recordOf it.data)).flatten ∧
      (evs.filter Event.isJsonWrite).length = 1 ∧
      (evs.filter Event.isIconWrite).length = 1 := by
  have hok := exportPack_ok decode pn v id0 desc items root
    (fun it hit => ⟨hcomp it hit, hdec it hit⟩)
  have hsave : List.filter Event.isSave
      ((items.map (itemSaveEvents decode (imagesDirOf root pn))).flatten) =
      (items.map (itemSaveEvents decode (imagesDirOf root pn))).flatten :=
    List.filter_eq_self.mpr (saveEvents_all_save decode (imagesDirOf root pn) items)
  have hjson : List.filter Event.isJsonWrite
      ((items.map (itemSaveEvents decode (imagesDirOf root pn))).flatten) = [] :=
    List.filter_eq_nil_iff.mpr (saveEvents_not_json decode (imagesDirOf root pn) items)
  have hicon : List.filter Event.isIconWrite
      ((items.map (itemSaveEvents decode (imagesDirOf root pn))).flatten) = [] :=
    List.filter_eq_nil_iff.mpr (saveEvents_not_icon decode (imagesDirOf root pn) items)
  refine ⟨_, _, hok, ?_, ?_, ?_, ?_, ?_⟩
  · rw [run_filter_save _ _ _ _ _ hsave]
    exact saveEvents_length decode (imagesDirOf root pn) items
  · exact records_length items
  · rfl
  · rw [run_filter_json _ _ _ _ _ hjson]
  · rw [run_filter_icon _ _ _ _ _ hicon]

/-- Witness for C4 at a concrete one-item export. -/
theorem export_counts_and_order_witness :
    ∃ evs pl, exportPack demoDecode "My Test Pack" "1.0.0" "My Test ID!"
        "A pack for testing" [demoItem] "out" = Except.ok (evs, pl) ∧
      (evs.filter Event.isSave).length =
        ([demoItem].map fun it => it.data.get_sizes.length).sum ∧
      pl.paintings.length = ([demoItem].map fun it => it.data.get_sizes.length).sum ∧
      pl.paintings =
        ([demoItem].map fun it => it.data.get_sizes.map (recordOf it.data)).flatten ∧
      (evs.filter Event.isJsonWrite).length = 1 ∧
      (evs.filter Event.isIconWrite).length = 1 :=
  export_counts_and_order demoDecode "My Test Pack" "1.0.0" "My Test ID!"
    "A pack for testing" [demoItem] "out" (by decide) (by decide) (by decide)

/-- C5: in a successful export every item yields one pixel buffer — the
crop, downscaled (via thumbnail) so its width becomes 1024 exactly when
the crop width exceeds 1024, and untouched otherwise — and every save
event of that item carries that same buffer, while each manifest record
carries the multiple's nominal (w, h) integers. -/
theorem export_single_buffer_per_item (decode : DecodeOracle) (pn v id0 desc : String)
    (items : List ExportItem) (root : String)
    (hcomp : ∀ it ∈ items, it.data.complete = true)
    (hdec : ∀ it ∈ items, (decode it.source_path).isSome = true) :
    ∃ pl, exportPack decode pn v id0 desc items root =
      Except.ok (Event.createImagesDir (imagesDirOf root pn) ::
        ((items.map (itemSaveEvents decode (imagesDirOf root pn))).flatten ++
         [Event.writeJsonFile (root ++ "/" ++ replaceSpaces pn ++ "/custompaintings.json") pl,
          Event.writeIconFile (root ++ "/" ++ replaceSpaces pn ++ "/icon.png")]), pl) ∧
      (∀ it ∈ items,
        (∀ ev ∈ itemSaveEvents decode (imagesDirOf root pn) it,
          ∃ p, ev = Event.saveImage p (bufferOf decode it)) ∧
        (∃ c, crop_single_image decode it.source_path it.data.image_size = some c ∧
          (c.width > 1024 → bufferOf decode it = Img.thumbnailOf c 1024 ∧
            (bufferOf decode it).width = 1024) ∧
          (¬c.width > 1024 → bufferOf decode it = c))) ∧
      pl.paintings = (items.map fun it => it.data.get_sizes.map (recordOf it.data)).flatten ∧
      (∀ it ∈ items, ∀ wh ∈ it.data.get_sizes,
        (recordOf it.data wh).width = wh.1 ∧ (recordOf it.data wh).height = wh.2) := by
  have hok := exportPack_ok decode pn v id0 desc items root
    (fun it hit => ⟨hcomp it hit, hdec it hit⟩)
  refine ⟨_, hok, ?_, rfl, fun it hit wh hwh => ⟨rfl, rfl⟩⟩
  intro it hit
  constructor
  · intro ev hev
    simp only [itemSaveEvents] at hev
    rcases List.mem_map.mp hev with ⟨wh, hwh, rfl⟩
    exact ⟨_, rfl⟩
  · obtain ⟨dims, hdims⟩ := Option.isSome_iff_exists.mp (hdec it hit)
    have hc : ∃ c, crop_single_image decode it.source_path it.data.image_size = some c := by
      simp [crop_single_image, hdims]
    obtain ⟨c, hc⟩ := hc
    refine ⟨c, hc, ?_, ?_⟩
    · intro hgt
      constructor
      · simp [bufferOf, hc, hgt]
      · simp only [bufferOf, hc, hgt, if_pos, Img.width]
        exact Nat.min_eq_right (Nat.le_of_lt hgt)
    · intro hle
      simp [bufferOf, hc, hle]

/-- Witness for C5 at a concrete one-item export. -/
theorem export_single_buffer_per_item_witness :
    ∃ pl, exportPack demoDecode "My Test Pack" "1.0.0" "My Test ID!"
        "A pack for testing" [demoItem] "out" =
      Except.ok (Event.createImagesDir (imagesDirOf "out" "My Test Pack") ::
        (([demoItem].map (itemSaveEvents demoDecode (imagesDirOf "out" "My Test Pack"))).flatten ++
         [Event.writeJsonFile
            ("out" ++ "/" ++ replaceSpaces "My Test Pack" ++ "/custompaintings.json") pl,
          Event.writeIconFile
            ("out" ++ "/" ++ replaceSpaces "My Test Pack" ++ "/icon.png")]), pl) ∧
      (∀ it ∈ [demoItem],
        (∀ ev ∈ itemSaveEvents demoDecode (imagesDirOf "out" "My Test Pack") it,
          ∃ p, ev = Event.saveImage p (bufferOf demoDecode it)) ∧
        (∃ c, crop_single_image demoDecode it.source_path it.data.image_size = some c ∧
          (c.width > 1024 → bufferOf demoDecode it = Img.thumbnailOf c 1024 ∧
            (bufferOf demoDecode it).width = 1024) ∧
          (¬c.width > 1024 → bufferOf demoDecode it = c))) ∧
      pl.paintings =
        ([demoItem].map fun it => it.data.get_sizes.map (recordOf it.data)).flatten ∧
      (∀ it ∈ [demoItem], ∀ wh ∈ it.data.get_sizes,
        (recordOf it.data wh).width = wh.1 ∧ (recordOf it.data wh).height = wh.2) :=
  export_single_buffer_per_item demoDecode "My Test Pack" "1.0.0" "My Test ID!"
    "A pack for testing" [demoItem] "out" (by decide) (by decide)

/-- C3 (amended): in a successful export each item and size multiple
yields a file saved at `images/<sanitized_filename_stem>_<w>x<h>.png` —
the sanitized identifier is not part of the file path; it prefixes the
manifest record's id, `<sanitized_id>_<w>x<h>`. -/
theorem export_image_file_paths (decode : DecodeOracle) (pn v id0 desc : String)
    (items : List ExportItem) (root : String)
    (hcomp : ∀ it ∈ items, it.data.complete = true)
    (hdec : ∀ it ∈ items, (decode it.source_path).isSome = true) :
    ∃ evs pl, exportPack decode pn v id0 desc items root = Except.ok (evs, pl) ∧
      ∀ it ∈ items, ∀ wh ∈ it.data.get_sizes,
        Event.saveImage
          (imagesDirOf root pn ++ "/" ++
            (replaceSpaces (it.data.filename.getD "") ++ "_" ++ sizeTag wh) ++ ".png")
          (bufferOf decode it) ∈ evs ∧
        recordOf it.data wh ∈ pl.paintings ∧
        (recordOf it.data wh).id = replaceSpaces (it.data.id.getD "") ++ "_" ++ sizeTag wh := by
  have hok := exportPack_ok decode pn v id0 desc items root
    (fun it hit => ⟨hcomp it hit, hdec it hit⟩)
  refine ⟨_, _, hok, ?_⟩
  intro it hit wh hwh
  refine ⟨?_, ?_, rfl⟩
  · apply List.mem_cons_of_mem
    apply List.mem_append_left
    apply List.mem_flatten.mpr
    refine ⟨itemSaveEvents decode (imagesDirOf root pn) it,
      List.mem_map_of_mem _ hit, ?_⟩
    simp only [itemSaveEvents]
    exact List.mem_map_of_mem _ hwh
  · apply List.mem_flatten.mpr
    exact ⟨it.data.get_sizes.map (recordOf it.data),
      List.mem_map_of_mem _ hit, List.mem_map_of_mem _ hwh⟩

/-- Witness for C3's amended statement at a concrete one-item export. -/
theorem export_image_file_paths_witness :
    ∃ evs pl, exportPack demoDecode "My Test Pack" "1.0.0" "My Test ID!"
        "A pack for testing" [demoItem] "out" = Except.ok (evs, pl) ∧
      ∀ it ∈ [demoItem], ∀ wh ∈ it.data.get_sizes,
        Event.saveImage
          (imagesDirOf "out" "My Test Pack" ++ "/" ++
            (replaceSpaces (it.data.filename.getD "") ++ "_" ++ sizeTag wh) ++ ".png")
          (bufferOf demoDecode it) ∈ evs ∧
        recordOf it.data wh ∈ pl.paintings ∧
        (recordOf it.data wh).id = replaceSpaces (it.data.id.getD "") ++ "_" ++ sizeTag wh :=
  export_image_file_paths demoDecode "My Test Pack" "1.0.0" "My Test ID!"
    "A pack for testing" [demoItem] "out" (by decide) (by decide)

/-- C9: if every source decodes and every item carries name and artist,
but some item lacks its identifier or filename stem, the whole export
call aborts as a contract violation: the result is the
missing-metadata error, and the only files written are those of the
items strictly before the first incomplete one — no remaining item is
exported. -/
theorem export_contract_violation (decode : DecodeOracle) (pn v id0 desc : String)
    (items : List ExportItem) (root : String)
    (hdec : ∀ it ∈ items, (decode it.source_path).isSome = true)
    (hna : ∀ it ∈ items, it.data.name.isSome = true ∧ it.data.artist.isSome = true)
    (hmiss : ∃ it ∈ items, it.data.id = none ∨ it.data.filename = none) :
    exportPack decode pn v id0 desc items root =
      Except.error (Abort.missingMetadata,
        Event.createImagesDir (imagesDirOf root pn) ::
          ((items.takeWhile fun it => it.data.id.isSome && it.data.filename.isSome).map
            (itemSaveEvents decode (imagesDirOf root pn))).flatten) := by
  have hgo := writeImagesGo_abort decode (root ++ "/" ++ replaceSpaces pn ++ "/images") items
    (PackList.new pn v (sanitize_pack_id id0) desc)
    (fun it hit => ⟨hdec it hit, (hna it hit).1, (hna it hit).2⟩) hmiss
  simp only [exportPack, write_images, hgo, imagesDirOf]

/-- Witness for C9: a complete first item followed by an item with no
identifier; the first item's files are written, then the run aborts. -/
theorem export_contract_violation_witness :
    exportPack demoDecode "My Test Pack" "1.0.0" "My Test ID!" "A pack for testing"
      [demoItem, demoBadItem] "out" =
      Except.error (Abort.missingMetadata,
        Event.createImagesDir (imagesDirOf "out" "My Test Pack") ::
          (([demoItem, demoBadItem].takeWhile
              fun it => it.data.id.isSome && it.data.filename.isSome).map
            (itemSaveEvents demoDecode (imagesDirOf "out" "My Test Pack"))).flatten) :=
  export_contract_violation demoDecode "My Test Pack" "1.0.0" "My Test ID!"
    "A pack for testing" [demoItem, demoBadItem] "out" (by decide) (by decide) (by decide)

end PPM
